import Mathlib

/-!
Shallow embedding of `ldapauthenticator.py` (class `LDAPAuthenticator`).

The LDAP server and the `ldap3` library are external collaborators: they are
modelled by an oracle (`Dir`) answering bind and search requests, and by a pair
of abstract escaping functions (`Esc`, standing for `ldap3`'s
`escape_filter_chars` and `escape_rdn`).  Every directory interaction the
Python code performs is recorded as an `Op` in an output trace, carrying the
arguments of the corresponding `ldap3` call site, so that properties such as
"no network call is attempted" or "the candidates are tried in order" are
statements about the trace.
-/

namespace LdapAuth

/-- Python attribute values returned by ldap3 can be plain strings or lists of
strings; `resolve_username` branches on `isinstance(user_dn, list)`. -/
inductive PyVal where
  | str (s : String)
  | list (l : List String)
deriving DecidableEq

/-- Outcome of constructing and binding an ldap3 connection for one user DN:
`get_connection` may raise `LDAPBindError` (auto-bind failure), or return a
connection on which the bind succeeds or fails. -/
inductive BindOutcome where
  | raiseErr
  | success
  | failure
deriving DecidableEq

/-- One recorded directory interaction, one constructor per `ldap3` call site
in the source.  `userBind`, `postSearch` and `groupSearch` additionally record
the escaped username value that was interpolated at that call site. -/
inductive Op where
  | lookupConnect (userdn password : Option String)
  | lookupSearch (base : Option String) (filter : String)
  | userBind (userdn password escName : String)
  | postSearch (base : Option String) (filter : String) (escName : String)
  | groupSearch (group : String) (filter : String) (escName : String)
  | attrSearch (base : String)
deriving DecidableEq

/-- Whether an operation is a user bind attempt (the loop over DN candidates). -/
def Op.isUserBind : Op → Bool
  | Op.userBind _ _ _ => true
  | _ => false

/-- Whether an operation is a group-membership probe. -/
def Op.isGroupSearch : Op → Bool
  | Op.groupSearch _ _ _ => true
  | _ => false

/-- A directory entry as it appears in `conn.response`: its DN, whether the
response dict has an `attributes` key, and the attribute values (ldap3 returns
an empty list for a requested attribute that is absent on the entry). -/
structure Entry where
  dn : String
  hasAttrs : Bool
  attrValue : Option String → PyVal

/-- The directory/ldap3 oracle.  Search results are keyed by the filter string
actually sent, so escaping mistakes would change the answer. -/
structure Dir where
  lookupBindOk : Bool
  lookupEntries : String → List Entry
  userBind : String → String → BindOutcome
  postEntries : String → List Entry
  groupFound : String → String → Bool
  attrFound : String → Bool
  attrResult : String → List (String × PyVal)

/-- The two ldap3 escaping functions used by the source
(`escape_filter_chars` and `escape_rdn`), kept abstract. -/
structure Esc where
  filterChars : String → String
  rdn : String → String

/-- The configuration surface read by `authenticate`/`check_allowed`.
`validUsername` stands for `re.match(valid_username_regex, ·)`; empty string
encodes an unconfigured `search_filter`/`group_search_filter` (Python
falsiness), `Option` encodes `None`-able traits. -/
structure Config where
  validUsername : String → Bool
  bind_dn_template : List String
  allowed_groups : Option (List String)
  group_search_filter : String
  group_attributes : List String
  lookup_dn : Bool
  user_search_base : Option String
  user_attribute : Option String
  lookup_dn_search_filter : String
  lookup_dn_search_user : Option String
  lookup_dn_search_password : Option String
  lookup_dn_user_dn_attribute : Option String
  search_filter : String
  attributes : List String
  auth_state_attributes : List String
  use_lookup_dn_username : Bool
  allowed_users : Option (List String)

/-- The credentials passed to `authenticate` (password may be `None`). -/
structure AuthData where
  username : String
  password : Option String

/-- The successful result of `authenticate`: `name` plus the
`auth_state` dictionary (`ldap_groups` and `user_attributes`). -/
structure AuthResult where
  name : String
  ldap_groups : List String
  user_attributes : List (String × PyVal)
deriving DecidableEq

/-- Python `str(x)` for an optional string (`None` prints as `"None"`), as
used when a `None` trait is interpolated by `str.format`. -/
def optStr : Option String → String
  | none => "None"
  | some s => s

/-- Python truthiness of an `Option String` (`None` and `""` are falsy). -/
def pyFalsy : Option String → Bool
  | none => true
  | some s => s = ""

/-- Python truthiness of an optional list (`None` and `[]` are falsy). -/
def pyTruthyList : Option (List String) → Bool
  | none => false
  | some l => !l.isEmpty

/-- Python whitespace characters for `str.strip()` (ASCII fragment). -/
def isPySpace (c : Char) : Bool :=
  c = ' ' || c = '\t' || c = '\n' || c = '\r' || c = '\x0b' || c = '\x0c'

/-- Whether `s.strip() == ""` in Python: every character is whitespace. -/
def pyStripEmpty (s : String) : Bool :=
  s.toList.all isPySpace

/-- Fuel-indexed worker for `pyFormat`.  A `\x7b`-delimited field is replaced
by its value from the substitution list; the replacement text is not rescanned
(matching `str.format`).  The fuel equals the input length, and shrinks no
slower than the character list, so it never runs out before the list does. -/
def pyFormatAux (subst : List (String × String)) : Nat → List Char → List Char
  | 0, cs => cs
  | _ + 1, [] => []
  | n + 1, c :: rest =>
    if c = '\x7b' then
      let name := rest.takeWhile (fun d => decide (d ≠ '\x7d'))
      match rest.dropWhile (fun d => decide (d ≠ '\x7d')) with
      | [] => c :: rest
      | _ :: tail =>
        (match List.lookup (String.mk name) subst with
         | some v => v.toList
         | none => c :: (name ++ ['\x7d'])) ++ pyFormatAux subst n tail
    else c :: pyFormatAux subst n rest

/-- Python `s.format(**subst)` restricted to simple named fields, which is the
only shape the source's templates use. -/
def pyFormat (s : String) (subst : List (String × String)) : String :=
  String.mk (pyFormatAux subst s.toList.length s.toList)

/-- Source `_validate_bind_dn_template`: the raw trait value is either a
string or a list of strings. -/
inductive StrOrList where
  | str (s : String)
  | list (l : List String)

/-- Embedding of `_validate_bind_dn_template`: `rv` starts as `[]`, is
replaced by `[proposal.value]` only when the proposal is a string, and blank
entries are filtered when present. -/
def validate_bind_dn_template (proposal : StrOrList) : List String :=
  let rv : List String := []
  let rv := match proposal with
    | StrOrList.str s => [s]
    | StrOrList.list _ => rv
  if rv.contains "" then rv.filter (fun e => decide (e ≠ "")) else rv

/-- The lookup-mode search filter: `lookup_dn_search_filter.format(
login_attr=user_attribute, login=escape_filter_chars(username))`. -/
def lookupFilter (esc : Esc) (cfg : Config) (username : String) : String :=
  pyFormat cfg.lookup_dn_search_filter
    [("login_attr", optStr cfg.user_attribute), ("login", esc.filterChars username)]

/-- Embedding of `resolve_username`: returns the `(user_dn, entry_dn)` pair
together with the trace of directory operations performed. -/
def resolve_username (esc : Esc) (cfg : Config) (dir : Dir) (username : String) :
    (Option String × Option String) × List Op :=
  let ops := [Op.lookupConnect cfg.lookup_dn_search_user cfg.lookup_dn_search_password]
  if !dir.lookupBindOk then ((none, none), ops)
  else
    let f := lookupFilter esc cfg username
    let ops := ops ++ [Op.lookupSearch cfg.user_search_base f]
    match dir.lookupEntries f with
    | [] => ((none, none), ops)
    | e :: _ =>
      if !e.hasAttrs then ((none, none), ops)
      else
        match e.attrValue cfg.lookup_dn_user_dn_attribute with
        | PyVal.str s => ((some s, some e.dn), ops)
        | PyVal.list [] => ((none, none), ops)
        | PyVal.list (x :: _) => ((some x, some e.dn), ops)

/-- The DN-candidate loop of `authenticate` (lines 468-486): for each template
substitute the RDN-escaped username, attempt the bind, stop at the first
success; a raised `LDAPBindError` and a failed `conn.bind()` both just move on
to the next candidate.  Returns the successfully bound DN, if any. -/
def tryBind (esc : Esc) (dir : Dir) (username password : String) :
    List String → Option String × List Op
  | [] => (none, [])
  | dn :: rest =>
    let userdn := pyFormat dn [("username", esc.rdn username)]
    let op := Op.userBind userdn password (esc.rdn username)
    if dir.userBind userdn password = BindOutcome.success then (some userdn, [op])
    else
      let r := tryBind esc dir username password rest
      (r.1, op :: r.2)

/-- Lines 460-466 of `authenticate`: when `lookup_dn` is set, resolve the
username (failing on a falsy result) and fall back to the resolved entry DN as
the single template when none are configured. -/
def lookupPhase (esc : Esc) (cfg : Config) (dir : Dir) (username : String) :
    Option (String × List String) × List Op :=
  if cfg.lookup_dn then
    match resolve_username esc cfg dir username with
    | ((ru, rdn), ops) =>
      if pyFalsy ru then (none, ops)
      else
        (some (ru.getD "",
          if cfg.bind_dn_template.isEmpty then [rdn.getD ""] else cfg.bind_dn_template), ops)
  else (some (username, cfg.bind_dn_template), [])

/-- Lines 436-490 of `authenticate`: username validation, blank-password
rejection, the `lookup_dn`/`bind_dn_template` sanity check, username
resolution, and the bind loop.  On success it yields the effective username
and the bound user DN. -/
def prebind (esc : Esc) (cfg : Config) (dir : Dir) (data : AuthData) :
    Option (String × String) × List Op :=
  if !cfg.validUsername data.username then (none, [])
  else match data.password with
  | none => (none, [])
  | some password =>
    if pyStripEmpty password then (none, [])
    else if !cfg.lookup_dn && cfg.bind_dn_template.isEmpty then (none, [])
    else match lookupPhase esc cfg dir data.username with
    | (none, ops) => (none, ops)
    | (some (u, tpl), ops) =>
      match tryBind esc dir u password tpl with
      | (none, bops) => (none, ops ++ bops)
      | (some userdn, bops) => (some (u, userdn), ops ++ bops)

/-- The post-bind provisioning filter: `search_filter.format(
userattr=user_attribute, username=escape_filter_chars(username))`. -/
def postFilter (esc : Esc) (cfg : Config) (username : String) : String :=
  pyFormat cfg.search_filter
    [("userattr", optStr cfg.user_attribute), ("username", esc.filterChars username)]

/-- The group-membership filter: `group_search_filter.format(
userdn=escape_filter_chars(userdn), uid=escape_filter_chars(username))`. -/
def groupFilter (esc : Esc) (cfg : Config) (userdn username : String) : String :=
  pyFormat cfg.group_search_filter
    [("userdn", esc.filterChars userdn), ("uid", esc.filterChars username)]

/-- The loop over `allowed_groups` (lines 523-539): probe each group DN with a
base-scoped search, append and break at the first match. -/
def probeGroups (dir : Dir) (f escName : String) :
    List String → List String × List Op
  | [] => ([], [])
  | g :: rest =>
    let op := Op.groupSearch g f escName
    if dir.groupFound g f then ([g], [op])
    else
      let r := probeGroups dir f escName rest
      (r.1, op :: r.2)

/-- Embedding of `get_user_attributes`: search only when
`auth_state_attributes` is configured, return the first entry's attributes
when found. -/
def get_user_attributes (cfg : Config) (dir : Dir) (userdn : String) :
    List (String × PyVal) × List Op :=
  if cfg.auth_state_attributes.isEmpty then ([], [])
  else if dir.attrFound userdn then (dir.attrResult userdn, [Op.attrSearch userdn])
  else ([], [Op.attrSearch userdn])

/-- Lines 541-550 of `authenticate`: pick the returned name according to
`use_lookup_dn_username`, fetch the auth-state attributes, and build the
result dictionary. -/
def finishAuth (cfg : Config) (dir : Dir) (rawUsername username userdn : String)
    (ldap_groups : List String) : Option AuthResult × List Op :=
  let name := if cfg.use_lookup_dn_username then username else rawUsername
  let r := get_user_attributes cfg dir userdn
  (some { name := name, ldap_groups := ldap_groups, user_attributes := r.1 }, r.2)

/-- Lines 515-550 of `authenticate`: when `allowed_groups` is truthy, require
`group_search_filter` and `group_attributes` (fail closed), then probe the
groups in order; otherwise the membership list stays empty. -/
def groupsPhase (esc : Esc) (cfg : Config) (dir : Dir)
    (rawUsername username userdn : String) : Option AuthResult × List Op :=
  match cfg.allowed_groups with
  | some (g :: gs) =>
    if cfg.group_search_filter = "" || cfg.group_attributes.isEmpty then (none, [])
    else
      let f := groupFilter esc cfg userdn username
      let pr := probeGroups dir f (esc.filterChars username) (g :: gs)
      let fin := finishAuth cfg dir rawUsername username userdn pr.1
      (fin.1, pr.2 ++ fin.2)
  | _ => finishAuth cfg dir rawUsername username userdn []

/-- Lines 492-550 of `authenticate`: the post-bind search-filter check
(exactly one entry required) followed by the group phase. -/
def afterBind (esc : Esc) (cfg : Config) (dir : Dir)
    (rawUsername username userdn : String) : Option AuthResult × List Op :=
  if cfg.search_filter = "" then groupsPhase esc cfg dir rawUsername username userdn
  else
    let f := postFilter esc cfg username
    let op := Op.postSearch cfg.user_search_base f (esc.filterChars username)
    let n := (dir.postEntries f).length
    if n = 0 then (none, [op])
    else if 1 < n then (none, [op])
    else
      let r := groupsPhase esc cfg dir rawUsername username userdn
      (r.1, op :: r.2)

/-- Embedding of `authenticate`: the rejection/bind phase followed, on a
successful bind, by the post-bind checks. -/
def authenticate (esc : Esc) (cfg : Config) (dir : Dir) (data : AuthData) :
    Option AuthResult × List Op :=
  match prebind esc cfg dir data with
  | (none, ops) => (none, ops)
  | (some (u, userdn), ops) =>
    let r := afterBind esc cfg dir data.username u userdn
    (r.1, ops ++ r.2)

/-- The host framework side of `check_allowed`: whether the base class has an
`allow_all` trait (JupyterHub ≥ 5) and what `super().check_allowed` returns. -/
structure Host where
  hasAllowAll : Bool
  superAllowed : String → Option (List String) → Bool

/-- The auth model passed back to `check_allowed`: an optional auth state
carrying `ldap_groups` (the dictionary lookups use `[]` as default). -/
structure AuthModel where
  auth_state : Option (List String)

/-- Embedding of `check_allowed`.  It takes the directory oracle so that its
independence from the directory can be stated; the source performs no
directory operation here, so the trace component is empty. -/
def check_allowed (cfg : Config) (host : Host) (username : String)
    (auth_model : AuthModel) (dir : Dir) : Bool × List Op :=
  let early : Bool :=
    if !host.hasAllowAll then
      (!pyTruthyList cfg.allowed_users && !pyTruthyList cfg.allowed_groups) ||
        (pyTruthyList cfg.allowed_users && (cfg.allowed_users.getD []).contains username)
    else host.superAllowed username auth_model.auth_state
  if early then (true, [])
  else if pyTruthyList cfg.allowed_groups then
    let in_groups := auth_model.auth_state.getD []
    ((cfg.allowed_groups.getD []).any (fun g => in_groups.contains g), [])
  else (false, [])

/-! Helper lemmas about the embedding. -/

theorem filter_eq_nil_of (p : Op → Bool) (l : List Op) (h : ∀ a ∈ l, p a = false) :
    l.filter p = [] := by
  induction l with
  | nil => rfl
  | cons a l ih =>
    simp only [List.filter, h a (List.mem_cons_self a l)]
    exact ih fun b hb => h b (List.mem_cons_of_mem a hb)

theorem pyFormatAux_of_no_brace (subst : List (String × String)) :
    ∀ n cs, (∀ c ∈ cs, c ≠ '\x7b') → pyFormatAux subst n cs = cs := by
  intro n
  induction n with
  | zero => intro cs _; rfl
  | succ n ih =>
    intro cs h
    cases cs with
    | nil => rfl
    | cons c rest =>
      have hc : c ≠ '\x7b' := h c (List.mem_cons_self c rest)
      simp only [pyFormatAux, if_neg hc]
      rw [ih rest fun d hd => h d (List.mem_cons_of_mem c hd)]

theorem pyFormat_of_no_brace (s : String) (subst : List (String × String))
    (h : ∀ c ∈ s.toList, c ≠ '\x7b') : pyFormat s subst = s := by
  unfold pyFormat
  rw [pyFormatAux_of_no_brace subst _ _ h]
  cases s
  rfl

theorem tryBind_ops (esc : Esc) (dir : Dir) (un pw : String) :
    ∀ l, ∀ op ∈ (tryBind esc dir un pw l).2, ∃ d, op = Op.userBind d pw (esc.rdn un) := by
  intro l
  induction l with
  | nil => intro op hop; simp [tryBind] at hop
  | cons dn rest ih =>
    intro op hop
    simp only [tryBind] at hop
    split at hop
    · rcases List.mem_singleton.mp hop with rfl
      exact ⟨_, rfl⟩
    · rcases List.mem_cons.mp hop with rfl | hmem
      · exact ⟨_, rfl⟩
      · exact ih op hmem

theorem resolve_username_snd (esc : Esc) (cfg : Config) (dir : Dir) (un : String) :
    (resolve_username esc cfg dir un).2 =
      if dir.lookupBindOk then
        [Op.lookupConnect cfg.lookup_dn_search_user cfg.lookup_dn_search_password,
         Op.lookupSearch cfg.user_search_base (lookupFilter esc cfg un)]
      else [Op.lookupConnect cfg.lookup_dn_search_user cfg.lookup_dn_search_password] := by
  unfold resolve_username
  cases hb : dir.lookupBindOk
  · simp [hb]
  · simp only [hb, Bool.not_true, Bool.false_eq_true, if_false, if_true]
    cases hE : dir.lookupEntries (lookupFilter esc cfg un) with
    | nil => simp
    | cons e rest =>
      cases hA : e.hasAttrs
      · simp [hA]
      · cases hV : e.attrValue cfg.lookup_dn_user_dn_attribute with
        | str s => simp [hA, hV]
        | list l => cases l <;> simp [hA, hV]

theorem resolve_username_ops (esc : Esc) (cfg : Config) (dir : Dir) (un : String) :
    ∀ op ∈ (resolve_username esc cfg dir un).2,
      (∃ a b, op = Op.lookupConnect a b) ∨ ∃ a b, op = Op.lookupSearch a b := by
  intro op hop
  rw [resolve_username_snd] at hop
  by_cases hb : dir.lookupBindOk <;> simp [hb] at hop
  · rcases hop with rfl | rfl
    · exact Or.inl ⟨_, _, rfl⟩
    · exact Or.inr ⟨_, _, rfl⟩
  · rcases hop with rfl
    exact Or.inl ⟨_, _, rfl⟩

theorem lookupPhase_ops (esc : Esc) (cfg : Config) (dir : Dir) (un : String) :
    ∀ op ∈ (lookupPhase esc cfg dir un).2,
      (∃ a b, op = Op.lookupConnect a b) ∨ ∃ a b, op = Op.lookupSearch a b := by
  intro op hop
  unfold lookupPhase at hop
  by_cases hl : cfg.lookup_dn
  · simp only [hl, if_true] at hop
    rcases hR : resolve_username esc cfg dir un with ⟨⟨ru, rdn⟩, ops⟩
    rw [hR] at hop
    have := resolve_username_ops esc cfg dir un op
    rw [hR] at this
    by_cases hf : pyFalsy ru <;> simp [hf] at hop <;> exact this hop
  · simp [hl] at hop

theorem prebind_ops (esc : Esc) (cfg : Config) (dir : Dir) (data : AuthData) :
    ∀ op ∈ (prebind esc cfg dir data).2,
      (∃ a b, op = Op.lookupConnect a b) ∨ (∃ a b, op = Op.lookupSearch a b) ∨
        ∃ a b c, op = Op.userBind a b c := by
  intro op hop
  unfold prebind at hop
  by_cases hv : cfg.validUsername data.username
  case neg => simp [hv] at hop
  simp only [hv, Bool.not_true, Bool.false_eq_true, if_false] at hop
  cases hp : data.password with
  | none => rw [hp] at hop; simp at hop
  | some pw =>
    rw [hp] at hop
    simp only [] at hop
    by_cases hs : pyStripEmpty pw
    case pos => simp [hs] at hop
    by_cases hc : (!cfg.lookup_dn && cfg.bind_dn_template.isEmpty) = true
    case pos => simp [hs, hc] at hop
    simp only [hs, hc, Bool.false_eq_true, if_false] at hop
    have hlops := lookupPhase_ops esc cfg dir data.username op
    rcases hL : lookupPhase esc cfg dir data.username with ⟨olp, lops⟩
    rw [hL] at hop hlops
    cases olp with
    | none =>
      simp only [] at hop
      rcases hlops hop with h | h
      · exact Or.inl h
      · exact Or.inr (Or.inl h)
    | some ut =>
      rcases ut with ⟨u, tpl⟩
      simp only [] at hop
      have hbops := tryBind_ops esc dir u pw tpl op
      rcases hB : tryBind esc dir u pw tpl with ⟨ob, bops⟩
      rw [hB] at hop hbops
      cases ob <;> simp only [] at hop <;>
        (rcases List.mem_append.mp hop with h | h
         · rcases hlops h with h2 | h2
           · exact Or.inl h2
           · exact Or.inr (Or.inl h2)
         · rcases hbops h with ⟨d, rfl⟩
           exact Or.inr (Or.inr ⟨_, _, _, rfl⟩))

theorem prebind_some_userBind (esc : Esc) (cfg : Config) (dir : Dir) (data : AuthData)
    (u userdn : String) (ops : List Op)
    (h : prebind esc cfg dir data = (some (u, userdn), ops)) :
    ∀ d p e, Op.userBind d p e ∈ ops → e = esc.rdn u := by
  intro d p e hop
  unfold prebind at h
  by_cases hv : cfg.validUsername data.username
  case neg => simp [hv] at h
  simp only [hv, Bool.not_true, Bool.false_eq_true, if_false] at h
  cases hp : data.password with
  | none => rw [hp] at h; simp at h
  | some pw =>
    rw [hp] at h
    simp only [] at h
    by_cases hs : pyStripEmpty pw
    case pos => simp [hs] at h
    by_cases hc : (!cfg.lookup_dn && cfg.bind_dn_template.isEmpty) = true
    case pos => simp [hs, hc] at h
    simp only [hs, hc, Bool.false_eq_true, if_false] at h
    have hlops := lookupPhase_ops esc cfg dir data.username (Op.userBind d p e)
    rcases hL : lookupPhase esc cfg dir data.username with ⟨olp, lops⟩
    rw [hL] at h hlops
    cases olp with
    | none => simp at h
    | some ut =>
      rcases ut with ⟨u2, tpl⟩
      simp only [] at h
      have hbops := tryBind_ops esc dir u2 pw tpl (Op.userBind d p e)
      rcases hB : tryBind esc dir u2 pw tpl with ⟨ob, bops⟩
      rw [hB] at h hbops
      cases ob with
      | none => simp at h
      | some udn =>
        simp only [Prod.mk.injEq, Option.some.injEq] at h
        rcases h with ⟨⟨hu, _⟩, hops⟩
        subst hops
        rcases List.mem_append.mp hop with hmem | hmem
        · rcases hlops hmem with ⟨a, b, hab⟩ | ⟨a, b, hab⟩ <;> exact absurd hab (by simp)
        · rcases hbops hmem with ⟨d2, hd2⟩
          have : e = esc.rdn u2 := by
            injection hd2 with h1 h2 h3
          rw [this, hu]

theorem probeGroups_ops (dir : Dir) (f escName : String) :
    ∀ gs, ∀ op ∈ (probeGroups dir f escName gs).2, ∃ g, op = Op.groupSearch g f escName := by
  intro gs
  induction gs with
  | nil => intro op hop; simp [probeGroups] at hop
  | cons g rest ih =>
    intro op hop
    simp only [probeGroups] at hop
    split at hop
    · rcases List.mem_singleton.mp hop with rfl
      exact ⟨g, rfl⟩
    · rcases List.mem_cons.mp hop with rfl | hmem
      · exact ⟨g, rfl⟩
      · exact ih op hmem

theorem get_user_attributes_ops (cfg : Config) (dir : Dir) (userdn : String) :
    ∀ op ∈ (get_user_attributes cfg dir userdn).2, op = Op.attrSearch userdn := by
  intro op hop
  unfold get_user_attributes at hop
  split at hop
  · simp at hop
  · split at hop <;> exact List.mem_singleton.mp hop

theorem finishAuth_fst (cfg : Config) (dir : Dir) (rawUsername username userdn : String)
    (lg : List String) :
    (finishAuth cfg dir rawUsername username userdn lg).1 =
      some { name := if cfg.use_lookup_dn_username then username else rawUsername,
             ldap_groups := lg,
             user_attributes := (get_user_attributes cfg dir userdn).1 } := rfl

theorem finishAuth_ops (cfg : Config) (dir : Dir) (rawUsername username userdn : String)
    (lg : List String) :
    ∀ op ∈ (finishAuth cfg dir rawUsername username userdn lg).2, op = Op.attrSearch userdn := by
  intro op hop
  exact get_user_attributes_ops cfg dir userdn op hop

theorem groupsPhase_ops (esc : Esc) (cfg : Config) (dir : Dir)
    (rawUsername username userdn : String) :
    ∀ op ∈ (groupsPhase esc cfg dir rawUsername username userdn).2,
      (∃ g, op = Op.groupSearch g (groupFilter esc cfg userdn username) (esc.filterChars username)) ∨
        op = Op.attrSearch userdn := by
  intro op hop
  unfold groupsPhase at hop
  split at hop
  · split at hop
    · simp at hop
    · simp only [] at hop
      rcases List.mem_append.mp hop with h | h
      · exact Or.inl (probeGroups_ops dir _ _ _ op h)
      · exact Or.inr (finishAuth_ops cfg dir rawUsername username userdn _ op h)
  · exact Or.inr (finishAuth_ops cfg dir rawUsername username userdn _ op hop)

theorem afterBind_ops (esc : Esc) (cfg : Config) (dir : Dir)
    (rawUsername username userdn : String) :
    ∀ op ∈ (afterBind esc cfg dir rawUsername username userdn).2,
      op = Op.postSearch cfg.user_search_base (postFilter esc cfg username)
            (esc.filterChars username) ∨
      (∃ g, op = Op.groupSearch g (groupFilter esc cfg userdn username)
            (esc.filterChars username)) ∨
      op = Op.attrSearch userdn := by
  intro op hop
  unfold afterBind at hop
  split at hop
  · rcases groupsPhase_ops esc cfg dir rawUsername username userdn op hop with h | h
    · exact Or.inr (Or.inl h)
    · exact Or.inr (Or.inr h)
  · dsimp only [] at hop
    split at hop
    · rcases List.mem_singleton.mp hop with rfl
      exact Or.inl rfl
    · split at hop
      · rcases List.mem_singleton.mp hop with rfl
        exact Or.inl rfl
      · rcases List.mem_cons.mp hop with rfl | hmem
        · exact Or.inl rfl
        · rcases groupsPhase_ops esc cfg dir rawUsername username userdn op hmem with h | h
          · exact Or.inr (Or.inl h)
          · exact Or.inr (Or.inr h)

theorem afterBind_no_userBind (esc : Esc) (cfg : Config) (dir : Dir)
    (rawUsername username userdn : String) :
    ∀ op ∈ (afterBind esc cfg dir rawUsername username userdn).2, op.isUserBind = false := by
  intro op hop
  rcases afterBind_ops esc cfg dir rawUsername username userdn op hop with rfl | ⟨g, rfl⟩ | rfl <;>
    rfl

/-- The prefix of the group list actually probed: every group up to and
including the first one whose membership filter matches. -/
def probedGroups (p : String → Bool) : List String → List String
  | [] => []
  | g :: gs => if p g then [g] else g :: probedGroups p gs

theorem probeGroups_eq (dir : Dir) (f e : String) :
    ∀ gs, probeGroups dir f e gs =
      ((gs.find? fun g => dir.groupFound g f).toList,
       (probedGroups (fun g => dir.groupFound g f) gs).map fun g => Op.groupSearch g f e) := by
  intro gs
  induction gs with
  | nil => rfl
  | cons g rest ih =>
    by_cases hg : dir.groupFound g f
    · simp [probeGroups, probedGroups, List.find?_cons_of_pos, hg]
    · simp only [probeGroups, probedGroups, hg, if_false, Bool.false_eq_true, ih,
        List.map_cons]
      have h2 : List.find? (fun g => dir.groupFound g f) (g :: rest)
          = List.find? (fun g => dir.groupFound g f) rest :=
        List.find?_cons_of_neg rest hg
      rw [h2]

/-! Concrete scaffolding used by the closed evaluation theorems and the
witnesses: identity escaping functions, a base configuration and a base
directory oracle. -/

/-- Identity escaping functions (adequate for usernames without special
characters). -/
def escId : Esc := { filterChars := fun s => s, rdn := fun s => s }

/-- A template-mode base configuration accepting the username `alice`. -/
def cfgBase : Config :=
  { validUsername := fun u => u == "alice"
    bind_dn_template := ["uid={username},ou=x"]
    allowed_groups := none
    group_search_filter := "(|(member={userdn})(memberUid={uid}))"
    group_attributes := ["member", "memberUid"]
    lookup_dn := false
    user_search_base := some "ou=people"
    user_attribute := some "uid"
    lookup_dn_search_filter := "({login_attr}={login})"
    lookup_dn_search_user := none
    lookup_dn_search_password := none
    lookup_dn_user_dn_attribute := some "cn"
    search_filter := ""
    attributes := []
    auth_state_attributes := []
    use_lookup_dn_username := true
    allowed_users := none }

/-- A directory oracle where every bind fails and every search is empty. -/
def dirBase : Dir :=
  { lookupBindOk := true
    lookupEntries := fun _ => []
    userBind := fun _ _ => BindOutcome.failure
    postEntries := fun _ => []
    groupFound := fun _ _ => false
    attrFound := fun _ => false
    attrResult := fun _ => [] }

/-- The credentials `alice` / `pw`. -/
def dataA : AuthData := { username := "alice", password := some "pw" }

/-! The claims. -/

/-- C1: the claim says a configured list of bind DN templates is preserved in
order (with empty entries filtered).  The code contradicts it and its own
docstring: `_validate_bind_dn_template` initialises `rv = []` and only ever
replaces it for a string proposal, so every list-valued configuration is
dropped entirely, while a single string still becomes a one-element list.
This theorem evaluates the validator at the failing input. -/
theorem c1_validator_drops_list_config :
    validate_bind_dn_template
        (StrOrList.list ["uid={username},ou=people,dc=example,dc=org"]) = [] ∧
      validate_bind_dn_template
        (StrOrList.str "uid={username},ou=people,dc=example,dc=org") =
        ["uid={username},ou=people,dc=example,dc=org"] :=
  ⟨rfl, rfl⟩

/-- A directory oracle in which only the DN `uid=alice,ou=b` (the second
template's candidate) binds successfully. -/
def dirC2 : Dir :=
  { dirBase with
    userBind := fun d _ =>
      if d == "uid=alice,ou=b" then BindOutcome.success else BindOutcome.failure }

/-- C2: the claim says that with two configured templates, authenticate tries
each candidate in order and succeeds on the second when only its bind
succeeds.  Because `_validate_bind_dn_template` drops list-valued
configurations, the validated template list is empty, so `authenticate`
returns `None` at the sanity check with no directory operation at all — even
against a directory where the second candidate's bind would succeed. -/
theorem c2_list_templates_never_tried :
    authenticate escId
      { cfgBase with
        bind_dn_template :=
          validate_bind_dn_template
            (StrOrList.list ["uid={username},ou=a", "uid={username},ou=b"]) }
      dirC2 dataA = (none, []) := rfl

/-- C7: a username rejected by the validation pattern, or a password that is
`None`, empty or whitespace-only, makes `authenticate` return `None` with an
empty operation trace — no connection, bind or search is attempted. -/
theorem c7_reject_before_network (esc : Esc) (cfg : Config) (dir : Dir) (data : AuthData) :
    (cfg.validUsername data.username = false →
      authenticate esc cfg dir data = (none, [])) ∧
    ((data.password = none ∨ ∃ pw, data.password = some pw ∧ pyStripEmpty pw = true) →
      authenticate esc cfg dir data = (none, [])) := by
  constructor
  · intro h
    simp [authenticate, prebind, h]
  · intro h
    by_cases hv : cfg.validUsername data.username
    · rcases h with h | ⟨pw, hp, hpw⟩
      · simp [authenticate, prebind, hv, h]
      · simp [authenticate, prebind, hv, hp, hpw]
    · simp [authenticate, prebind, hv]

/-- C7 witness: the regex-rejected username `Alice` is rejected with no
directory operation. -/
theorem c7_witness :
    authenticate escId cfgBase dirBase { username := "Alice", password := some "pw" } =
      (none, []) :=
  (c7_reject_before_network escId cfgBase dirBase
    { username := "Alice", password := some "pw" }).1 rfl

theorem prebind_lookup (esc : Esc) (cfg : Config) (dir : Dir) (data : AuthData) (pw : String)
    (hv : cfg.validUsername data.username = true)
    (hp : data.password = some pw)
    (hpw : pyStripEmpty pw = false)
    (hl : cfg.lookup_dn = true) :
    prebind esc cfg dir data =
      match lookupPhase esc cfg dir data.username with
      | (none, ops) => (none, ops)
      | (some (u, tpl), ops) =>
        match tryBind esc dir u pw tpl with
        | (none, bops) => (none, ops ++ bops)
        | (some userdn, bops) => (some (u, userdn), ops ++ bops) := by
  unfold prebind
  simp [hv, hp, hpw, hl]

/-- C3: with `lookup_dn` enabled, a lookup search returning zero entries makes
`authenticate` return `None` with no user bind attempted; and when the lookup
succeeds while no `bind_dn_template` is configured, the full DN of the found
directory entry is the single bind candidate. -/
theorem c3_lookup_zero_and_dn_fallback (esc : Esc) (cfg : Config) (dir : Dir)
    (data : AuthData) (pw : String)
    (hv : cfg.validUsername data.username = true)
    (hp : data.password = some pw)
    (hpw : pyStripEmpty pw = false)
    (hl : cfg.lookup_dn = true)
    (hb : dir.lookupBindOk = true) :
    (dir.lookupEntries (lookupFilter esc cfg data.username) = [] →
      (authenticate esc cfg dir data).1 = none ∧
        (authenticate esc cfg dir data).2.filter Op.isUserBind = []) ∧
    (∀ ent rest s, dir.lookupEntries (lookupFilter esc cfg data.username) = ent :: rest →
      ent.hasAttrs = true →
      ent.attrValue cfg.lookup_dn_user_dn_attribute = PyVal.str s →
      s ≠ "" →
      cfg.bind_dn_template = [] →
      (∀ c ∈ ent.dn.toList, c ≠ '\x7b') →
      (authenticate esc cfg dir data).2.filter Op.isUserBind =
        [Op.userBind ent.dn pw (esc.rdn s)]) := by
  constructor
  · intro hz
    have hres : resolve_username esc cfg dir data.username =
        ((none, none),
         [Op.lookupConnect cfg.lookup_dn_search_user cfg.lookup_dn_search_password,
          Op.lookupSearch cfg.user_search_base (lookupFilter esc cfg data.username)]) := by
      unfold resolve_username
      simp [hb, hz]
    have hlp : lookupPhase esc cfg dir data.username =
        (none,
         [Op.lookupConnect cfg.lookup_dn_search_user cfg.lookup_dn_search_password,
          Op.lookupSearch cfg.user_search_base (lookupFilter esc cfg data.username)]) := by
      unfold lookupPhase
      simp [hl, hres, pyFalsy]
    have hpre := prebind_lookup esc cfg dir data pw hv hp hpw hl
    rw [hlp] at hpre
    simp only [] at hpre
    constructor
    · simp [authenticate, hpre]
    · simp [authenticate, hpre, List.filter, Op.isUserBind]
  · intro ent rest s hres2 hattrs hval hs hbt hnb
    have hres : resolve_username esc cfg dir data.username =
        ((some s, some ent.dn),
         [Op.lookupConnect cfg.lookup_dn_search_user cfg.lookup_dn_search_password,
          Op.lookupSearch cfg.user_search_base (lookupFilter esc cfg data.username)]) := by
      unfold resolve_username
      simp [hb, hres2, hattrs, hval]
    have hlp : lookupPhase esc cfg dir data.username =
        (some (s, [ent.dn]),
         [Op.lookupConnect cfg.lookup_dn_search_user cfg.lookup_dn_search_password,
          Op.lookupSearch cfg.user_search_base (lookupFilter esc cfg data.username)]) := by
      unfold lookupPhase
      simp [hl, hres, pyFalsy, hs, hbt]
    have hfmt : pyFormat ent.dn [("username", esc.rdn s)] = ent.dn :=
      pyFormat_of_no_brace _ _ hnb
    have htb : tryBind esc dir s pw [ent.dn] =
        (if dir.userBind ent.dn pw = BindOutcome.success then some ent.dn else none,
         [Op.userBind ent.dn pw (esc.rdn s)]) := by
      simp only [tryBind, hfmt]
      split <;> simp
    have hpre := prebind_lookup esc cfg dir data pw hv hp hpw hl
    rw [hlp] at hpre
    simp only [] at hpre
    rw [htb] at hpre
    by_cases hub : dir.userBind ent.dn pw = BindOutcome.success
    · rw [if_pos hub] at hpre
      simp only [] at hpre
      simp only [authenticate, hpre]
      rw [List.filter_append, List.filter_append]
      rw [filter_eq_nil_of Op.isUserBind _
        (afterBind_no_userBind esc cfg dir data.username s ent.dn)]
      simp [List.filter, Op.isUserBind]
    · rw [if_neg hub] at hpre
      simp only [] at hpre
      simp only [authenticate, hpre]
      rw [List.filter_append]
      simp [List.filter, Op.isUserBind]

/-- C3 witness: configuration `lookup_dn = true` with no templates against a
directory whose lookup search finds nothing: `alice` is rejected. -/
theorem c3_witness :
    (authenticate escId { cfgBase with lookup_dn := true, bind_dn_template := [] }
      dirBase dataA).1 = none :=
  ((c3_lookup_zero_and_dn_fallback escId
      { cfgBase with lookup_dn := true, bind_dn_template := [] }
      dirBase dataA "pw" rfl rfl rfl rfl rfl).1 rfl).1

/-- C10: with `lookup_dn` enabled, when the looked-up user-DN attribute value
of the found entry is an empty list, `resolve_username` returns
`(None, None)` and `authenticate` returns `None` without attempting any user
bind. -/
theorem c10_empty_attribute_list_rejects (esc : Esc) (cfg : Config) (dir : Dir)
    (data : AuthData) (pw : String) (ent : Entry) (rest : List Entry)
    (hv : cfg.validUsername data.username = true)
    (hp : data.password = some pw)
    (hpw : pyStripEmpty pw = false)
    (hl : cfg.lookup_dn = true)
    (hb : dir.lookupBindOk = true)
    (hres2 : dir.lookupEntries (lookupFilter esc cfg data.username) = ent :: rest)
    (hattrs : ent.hasAttrs = true)
    (hval : ent.attrValue cfg.lookup_dn_user_dn_attribute = PyVal.list []) :
    (resolve_username esc cfg dir data.username).1 = (none, none) ∧
      (authenticate esc cfg dir data).1 = none ∧
      (authenticate esc cfg dir data).2.filter Op.isUserBind = [] := by
  have hres : resolve_username esc cfg dir data.username =
      ((none, none),
       [Op.lookupConnect cfg.lookup_dn_search_user cfg.lookup_dn_search_password,
        Op.lookupSearch cfg.user_search_base (lookupFilter esc cfg data.username)]) := by
    unfold resolve_username
    simp [hb, hres2, hattrs, hval]
  have hlp : lookupPhase esc cfg dir data.username =
      (none,
       [Op.lookupConnect cfg.lookup_dn_search_user cfg.lookup_dn_search_password,
        Op.lookupSearch cfg.user_search_base (lookupFilter esc cfg data.username)]) := by
    unfold lookupPhase
    simp [hl, hres, pyFalsy]
  have hpre := prebind_lookup esc cfg dir data pw hv hp hpw hl
  rw [hlp] at hpre
  simp only [] at hpre
  refine ⟨by rw [hres], ?_, ?_⟩
  · simp [authenticate, hpre]
  · simp [authenticate, hpre, List.filter, Op.isUserBind]

/-- The directory oracle for the C10 witness: the lookup finds one entry whose
`cn` attribute value is the empty list. -/
def dirC10 : Dir :=
  { dirBase with
    lookupEntries := fun _ =>
      [{ dn := "cn=alice,ou=people", hasAttrs := true, attrValue := fun _ => PyVal.list [] }] }

/-- C10 witness: the empty attribute list makes the concrete authentication
attempt fail. -/
theorem c10_witness :
    (authenticate escId { cfgBase with lookup_dn := true, bind_dn_template := [] }
      dirC10 dataA).1 = none :=
  (c10_empty_attribute_list_rejects escId
      { cfgBase with lookup_dn := true, bind_dn_template := [] }
      dirC10 dataA "pw"
      { dn := "cn=alice,ou=people", hasAttrs := true, attrValue := fun _ => PyVal.list [] }
      [] rfl rfl rfl rfl rfl rfl rfl rfl).2.1

/-- C4: with a configured `search_filter`, after a successful bind the filter
is run (a `postSearch` operation appears in the trace) and exactly one
matching entry is required: zero matches reject, more than one match rejects,
and an identity is produced only when exactly one entry matches. -/
theorem c4_search_filter_requires_unique_match (esc : Esc) (cfg : Config) (dir : Dir)
    (data : AuthData) (u userdn : String) (ops : List Op)
    (hsf : cfg.search_filter ≠ "")
    (hpre : prebind esc cfg dir data = (some (u, userdn), ops)) :
    ((dir.postEntries (postFilter esc cfg u)).length = 0 →
      (authenticate esc cfg dir data).1 = none) ∧
    (1 < (dir.postEntries (postFilter esc cfg u)).length →
      (authenticate esc cfg dir data).1 = none) ∧
    ((authenticate esc cfg dir data).1.isSome = true →
      (dir.postEntries (postFilter esc cfg u)).length = 1) ∧
    Op.postSearch cfg.user_search_base (postFilter esc cfg u) (esc.filterChars u) ∈
      (authenticate esc cfg dir data).2 := by
  have hauth : authenticate esc cfg dir data =
      ((afterBind esc cfg dir data.username u userdn).1,
       ops ++ (afterBind esc cfg dir data.username u userdn).2) := by
    simp [authenticate, hpre]
  have hA : afterBind esc cfg dir data.username u userdn =
      (if (dir.postEntries (postFilter esc cfg u)).length = 0 then
        ((none : Option AuthResult),
         [Op.postSearch cfg.user_search_base (postFilter esc cfg u) (esc.filterChars u)])
      else if 1 < (dir.postEntries (postFilter esc cfg u)).length then
        (none,
         [Op.postSearch cfg.user_search_base (postFilter esc cfg u) (esc.filterChars u)])
      else
        ((groupsPhase esc cfg dir data.username u userdn).1,
         Op.postSearch cfg.user_search_base (postFilter esc cfg u) (esc.filterChars u) ::
           (groupsPhase esc cfg dir data.username u userdn).2)) := by
    unfold afterBind
    rw [if_neg hsf]
  rcases Nat.lt_trichotomy (dir.postEntries (postFilter esc cfg u)).length 1 with hlt | heq1 | hgt
  · have h0 : (dir.postEntries (postFilter esc cfg u)).length = 0 := by omega
    rw [hauth, hA, if_pos h0]
    exact ⟨fun _ => rfl, fun h1 => absurd h1 (by omega), fun hs => by simp at hs,
      List.mem_append_right _ (List.mem_singleton.mpr rfl)⟩
  · rw [hauth, hA, if_neg (by omega), if_neg (by omega)]
    exact ⟨fun h0 => absurd h0 (by omega), fun h1 => absurd h1 (by omega), fun _ => heq1,
      List.mem_append_right _ (List.mem_cons_self _ _)⟩
  · rw [hauth, hA, if_neg (by omega), if_pos hgt]
    exact ⟨fun h0 => absurd h0 (by omega), fun _ => rfl, fun hs => by simp at hs,
      List.mem_append_right _ (List.mem_singleton.mpr rfl)⟩

/-- A configuration with a post-bind search filter, and a directory where the
bind for `uid=alice,ou=x` succeeds but the filter matches nothing. -/
def cfgC4 : Config := { cfgBase with search_filter := "(uid={username})" }

/-- The directory oracle for the C4 witness. -/
def dirC4 : Dir :=
  { dirBase with
    userBind := fun d _ =>
      if d == "uid=alice,ou=x" then BindOutcome.success else BindOutcome.failure }

/-- C4 witness: a successful bind followed by a zero-match search filter is
rejected. -/
theorem c4_witness : (authenticate escId cfgC4 dirC4 dataA).1 = none :=
  (c4_search_filter_requires_unique_match escId cfgC4 dirC4 dataA "alice" "uid=alice,ou=x"
      [Op.userBind "uid=alice,ou=x" "pw" "alice"] (by decide) rfl).1 rfl

/-- C6: with a truthy `allowed_groups` but a missing `group_search_filter` or
missing `group_attributes`, `authenticate` denies (returns `None`) after a
successful bind instead of skipping the membership check. -/
theorem c6_missing_group_config_denies (esc : Esc) (cfg : Config) (dir : Dir)
    (data : AuthData) (u userdn : String) (ops : List Op) (gs : List String)
    (hpre : prebind esc cfg dir data = (some (u, userdn), ops))
    (hg : cfg.allowed_groups = some gs)
    (hgs : gs ≠ [])
    (hmiss : cfg.group_search_filter = "" ∨ cfg.group_attributes = []) :
    (authenticate esc cfg dir data).1 = none := by
  have hauth : (authenticate esc cfg dir data).1 =
      (afterBind esc cfg dir data.username u userdn).1 := by
    simp [authenticate, hpre]
  have hgp : (groupsPhase esc cfg dir data.username u userdn).1 = none := by
    unfold groupsPhase
    rcases gs with _ | ⟨g, gs2⟩
    · exact absurd rfl hgs
    · rw [hg]
      have hcond : (decide (cfg.group_search_filter = "") || cfg.group_attributes.isEmpty)
          = true := by
        rcases hmiss with h | h <;> simp [h]
      simp only [hcond, if_true]
  rw [hauth]
  by_cases hsf : cfg.search_filter = ""
  · unfold afterBind
    rw [if_pos hsf]
    exact hgp
  · unfold afterBind
    rw [if_neg hsf]
    dsimp only []
    split
    · rfl
    · split
      · rfl
      · exact hgp

/-- A configuration with one allowed group but an empty group search filter. -/
def cfgC6 : Config :=
  { cfgBase with allowed_groups := some ["cn=g1,ou=groups"], group_search_filter := "" }

/-- C6 witness: the concrete misconfigured group check denies `alice` even
though the bind succeeded. -/
theorem c6_witness : (authenticate escId cfgC6 dirC4 dataA).1 = none :=
  c6_missing_group_config_denies escId cfgC6 dirC4 dataA "alice" "uid=alice,ou=x"
    [Op.userBind "uid=alice,ou=x" "pw" "alice"] ["cn=g1,ou=groups"] rfl rfl (by decide)
    (Or.inl rfl)

/-- C5: with truthy `allowed_groups`, a group search filter and group
attributes, the configured groups are probed in listed order up to and
including the first match, `ldap_groups` contains exactly that first matching
group (or is empty), and even when no group matches an identity is still
returned. -/
theorem c5_first_matching_group_recorded (esc : Esc) (cfg : Config) (dir : Dir)
    (data : AuthData) (u userdn : String) (ops : List Op) (gs : List String)
    (hpre : prebind esc cfg dir data = (some (u, userdn), ops))
    (hg : cfg.allowed_groups = some gs)
    (hgs : gs ≠ [])
    (hf : cfg.group_search_filter ≠ "")
    (ha : cfg.group_attributes ≠ [])
    (hsf : cfg.search_filter = "" ∨ (dir.postEntries (postFilter esc cfg u)).length = 1) :
    ∃ r, (authenticate esc cfg dir data).1 = some r ∧
      r.ldap_groups =
        (gs.find? fun g2 => dir.groupFound g2 (groupFilter esc cfg userdn u)).toList ∧
      (authenticate esc cfg dir data).2.filter Op.isGroupSearch =
        (probedGroups (fun g2 => dir.groupFound g2 (groupFilter esc cfg userdn u)) gs).map
          (fun g2 => Op.groupSearch g2 (groupFilter esc cfg userdn u) (esc.filterChars u)) := by
  obtain ⟨g, gs2, rfl⟩ : ∃ g gs2, gs = g :: gs2 := by
    rcases gs with _ | ⟨g, gs2⟩
    · exact absurd rfl hgs
    · exact ⟨g, gs2, rfl⟩
  have hauth : authenticate esc cfg dir data =
      ((afterBind esc cfg dir data.username u userdn).1,
       ops ++ (afterBind esc cfg dir data.username u userdn).2) := by
    simp [authenticate, hpre]
  have hae : cfg.group_attributes.isEmpty = false := by
    cases hA : cfg.group_attributes
    · exact absurd hA ha
    · rfl
  have hcond : (decide (cfg.group_search_filter = "") || cfg.group_attributes.isEmpty)
      = false := by
    simp [hf, hae]
  have hpg := probeGroups_eq dir (groupFilter esc cfg userdn u) (esc.filterChars u) (g :: gs2)
  have hgp : groupsPhase esc cfg dir data.username u userdn =
      ((finishAuth cfg dir data.username u userdn
          ((List.find? (fun g2 => dir.groupFound g2 (groupFilter esc cfg userdn u))
            (g :: gs2)).toList)).1,
       ((probedGroups (fun g2 => dir.groupFound g2 (groupFilter esc cfg userdn u))
          (g :: gs2)).map
            (fun g2 => Op.groupSearch g2 (groupFilter esc cfg userdn u) (esc.filterChars u))) ++
        (finishAuth cfg dir data.username u userdn
          ((List.find? (fun g2 => dir.groupFound g2 (groupFilter esc cfg userdn u))
            (g :: gs2)).toList)).2) := by
    unfold groupsPhase
    rw [hg]
    simp only [hcond, Bool.false_eq_true, if_false]
    rw [hpg]
  have hAB : (afterBind esc cfg dir data.username u userdn).1 =
        (groupsPhase esc cfg dir data.username u userdn).1 ∧
      (afterBind esc cfg dir data.username u userdn).2.filter Op.isGroupSearch =
        (groupsPhase esc cfg dir data.username u userdn).2.filter Op.isGroupSearch := by
    by_cases hsf0 : cfg.search_filter = ""
    · unfold afterBind
      rw [if_pos hsf0]
      exact ⟨rfl, rfl⟩
    · have hn1 : (dir.postEntries (postFilter esc cfg u)).length = 1 := by
        rcases hsf with h | h
        · exact absurd h hsf0
        · exact h
      unfold afterBind
      rw [if_neg hsf0]
      dsimp only []
      rw [if_neg (by omega), if_neg (by omega)]
      exact ⟨rfl, by simp [List.filter, Op.isGroupSearch]⟩
  have hopsg : ∀ op ∈ ops, op.isGroupSearch = false := by
    intro op hop
    rcases prebind_ops esc cfg dir data op (by rw [hpre]; exact hop) with
      ⟨a, b, rfl⟩ | ⟨a, b, rfl⟩ | ⟨a, b, c, rfl⟩ <;> rfl
  have hfing : ∀ op ∈ (finishAuth cfg dir data.username u userdn
      ((List.find? (fun g2 => dir.groupFound g2 (groupFilter esc cfg userdn u))
        (g :: gs2)).toList)).2, op.isGroupSearch = false := by
    intro op hop
    rw [finishAuth_ops cfg dir data.username u userdn _ op hop]
    rfl
  refine ⟨{ name := if cfg.use_lookup_dn_username then u else data.username,
            ldap_groups :=
              (List.find? (fun g2 => dir.groupFound g2 (groupFilter esc cfg userdn u))
                (g :: gs2)).toList,
            user_attributes := (get_user_attributes cfg dir userdn).1 }, ?_, rfl, ?_⟩
  · rw [hauth]
    dsimp only []
    rw [hAB.1, hgp]
    dsimp only []
    rw [finishAuth_fst]
  · rw [hauth]
    dsimp only []
    rw [List.filter_append, filter_eq_nil_of _ ops hopsg, hAB.2, hgp]
    dsimp only []
    rw [List.filter_append, filter_eq_nil_of _ _ hfing, List.nil_append, List.append_nil]
    rw [List.filter_eq_self.mpr]
    intro a hmem
    rcases List.mem_map.mp hmem with ⟨g2, _, rfl⟩
    rfl

/-- A configuration with two allowed groups, a group filter and attributes. -/
def cfgC5 : Config :=
  { cfgBase with allowed_groups := some ["cn=g1,ou=groups", "cn=g2,ou=groups"] }

/-- The directory oracle for the C5 witness: only the second group's
membership probe matches. -/
def dirC5 : Dir :=
  { dirC4 with groupFound := fun g _ => g == "cn=g2,ou=groups" }

/-- C5 witness: with only the second of two allowed groups matching, `alice`
is authenticated and both groups were probed, in order. -/
theorem c5_witness :
    ∃ r, (authenticate escId cfgC5 dirC5 dataA).1 = some r ∧
      r.ldap_groups =
        (["cn=g1,ou=groups", "cn=g2,ou=groups"].find? fun g2 =>
          dirC5.groupFound g2 (groupFilter escId cfgC5 "uid=alice,ou=x" "alice")).toList ∧
      (authenticate escId cfgC5 dirC5 dataA).2.filter Op.isGroupSearch =
        (probedGroups (fun g2 =>
            dirC5.groupFound g2 (groupFilter escId cfgC5 "uid=alice,ou=x" "alice"))
          ["cn=g1,ou=groups", "cn=g2,ou=groups"]).map
          (fun g2 => Op.groupSearch g2 (groupFilter escId cfgC5 "uid=alice,ou=x" "alice")
            (escId.filterChars "alice")) :=
  c5_first_matching_group_recorded escId cfgC5 dirC5 dataA "alice" "uid=alice,ou=x"
    [Op.userBind "uid=alice,ou=x" "pw" "alice"] ["cn=g1,ou=groups", "cn=g2,ou=groups"]
    rfl rfl (by decide) (by decide) (by decide) (Or.inl rfl)

/-- C8: in any trace produced by an authentication whose bind phase succeeded
with effective username `u`, every post-bind search filter and every
group-membership filter interpolates the same escaped value
`escape_filter_chars(u)` (so the two paths escape the same raw username
identically), and every DN-template substitution uses `escape_rdn(u)`. -/
theorem c8_consistent_escaping (esc : Esc) (cfg : Config) (dir : Dir)
    (data : AuthData) (u userdn : String) (ops : List Op)
    (hpre : prebind esc cfg dir data = (some (u, userdn), ops)) :
    (∀ b f e, Op.postSearch b f e ∈ (authenticate esc cfg dir data).2 →
        e = esc.filterChars u ∧ f = postFilter esc cfg u) ∧
    (∀ g f e, Op.groupSearch g f e ∈ (authenticate esc cfg dir data).2 →
        e = esc.filterChars u ∧ f = groupFilter esc cfg userdn u) ∧
    (∀ d p e, Op.userBind d p e ∈ (authenticate esc cfg dir data).2 → e = esc.rdn u) ∧
    (∀ b f1 e1 g f2 e2, Op.postSearch b f1 e1 ∈ (authenticate esc cfg dir data).2 →
        Op.groupSearch g f2 e2 ∈ (authenticate esc cfg dir data).2 → e1 = e2) := by
  have htr : (authenticate esc cfg dir data).2 =
      ops ++ (afterBind esc cfg dir data.username u userdn).2 := by
    simp [authenticate, hpre]
  have hpost : ∀ b f e, Op.postSearch b f e ∈ (authenticate esc cfg dir data).2 →
      e = esc.filterChars u ∧ f = postFilter esc cfg u := by
    intro b f e hmem
    rw [htr] at hmem
    rcases List.mem_append.mp hmem with h | h
    · rcases prebind_ops esc cfg dir data _ (by rw [hpre]; exact h) with
        ⟨a, b2, hh⟩ | ⟨a, b2, hh⟩ | ⟨a, b2, c, hh⟩ <;> cases hh
    · rcases afterBind_ops esc cfg dir data.username u userdn _ h with hh | ⟨g2, hh⟩ | hh
      · injection hh with h1 h2 h3
        exact ⟨h3, h2⟩
      · cases hh
      · cases hh
  have hgroup : ∀ g f e, Op.groupSearch g f e ∈ (authenticate esc cfg dir data).2 →
      e = esc.filterChars u ∧ f = groupFilter esc cfg userdn u := by
    intro g f e hmem
    rw [htr] at hmem
    rcases List.mem_append.mp hmem with h | h
    · rcases prebind_ops esc cfg dir data _ (by rw [hpre]; exact h) with
        ⟨a, b2, hh⟩ | ⟨a, b2, hh⟩ | ⟨a, b2, c, hh⟩ <;> cases hh
    · rcases afterBind_ops esc cfg dir data.username u userdn _ h with hh | ⟨g2, hh⟩ | hh
      · cases hh
      · injection hh with h1 h2 h3
        exact ⟨h3, h2⟩
      · cases hh
  refine ⟨hpost, hgroup, ?_, ?_⟩
  · intro d p e hmem
    rw [htr] at hmem
    rcases List.mem_append.mp hmem with h | h
    · exact prebind_some_userBind esc cfg dir data u userdn ops hpre d p e h
    · rcases afterBind_ops esc cfg dir data.username u userdn _ h with hh | ⟨g2, hh⟩ | hh <;>
        cases hh
  · intro b f1 e1 g f2 e2 h1 h2
    rw [(hpost b f1 e1 h1).1, (hgroup g f2 e2 h2).1]

/-- A configuration exercising both the post-bind search filter and the group
membership filter. -/
def cfgC8 : Config :=
  { cfgBase with
    search_filter := "(uid={username})"
    allowed_groups := some ["cn=g1,ou=groups"] }

/-- The directory oracle for the C8 witness: the bind succeeds, the post-bind
filter matches exactly one entry, and the group probe matches. -/
def dirC8 : Dir :=
  { dirC4 with
    postEntries := fun _ =>
      [{ dn := "uid=alice,ou=x", hasAttrs := true, attrValue := fun _ => PyVal.list [] }]
    groupFound := fun _ _ => true }

/-- C8 witness: the concrete post-bind search op interpolated the
filter-escaped username into the configured filter. -/
theorem c8_witness :
    "alice" = escId.filterChars "alice" ∧ "(uid=alice)" = postFilter escId cfgC8 "alice" :=
  (c8_consistent_escaping escId cfgC8 dirC8 dataA "alice" "uid=alice,ou=x"
      [Op.userBind "uid=alice,ou=x" "pw" "alice"] rfl).1
    (some "ou=people") "(uid=alice)" "alice" (by decide)

/-- C9: `check_allowed` performs no directory operation, and its verdict does
not depend on the directory oracle at all: two calls with identical username,
auth model and configuration return the same verdict. -/
theorem c9_check_allowed_pure (cfg : Config) (host : Host) (username : String)
    (m : AuthModel) (d1 d2 : Dir) :
    (check_allowed cfg host username m d1).1 = (check_allowed cfg host username m d2).1 ∧
      (check_allowed cfg host username m d1).2 = [] := by
  refine ⟨rfl, ?_⟩
  unfold check_allowed
  dsimp only []
  split_ifs <;> rfl

end LdapAuth
